import Mathlib

/-!
Verification of the Organoid schedule engine (`src/organoid.py`).

Shallow embedding of the schedule-generation and conflict-detection engine:

* calendar dates are modelled as Python ordinals (`Int`, the value of
  `date.toordinal()`; ordinal 1 is a Monday, and `date + timedelta(days=k)`
  is ordinal addition by `k`);
* `date.weekday()` is `(ordinal + 6) % 7` (Monday = 0 … Sunday = 6);
* `generate_visit_dates` iterates a `while current_day <= end_day` loop per
  period; the loop is embedded with an explicit fuel argument
  (`periodDaysGo`), and `periodDays` supplies exactly the fuel
  `(end_day + 1 - start_day).toNat` that suffices whenever `interval ≥ 1`.
  For `interval ≤ 0` the source loop never terminates; that behaviour is
  captured separately by `periodDaysGo_length_of_interval_zero`;
* `find_overlaps` builds a Python `dict`; the embedding uses an association
  list with Python's insert-or-overwrite semantics (`dictInsert`);
* `results.sort(key=lambda x: (x["weekend_count"], -x["overlap_total"]))` is
  a stable ascending sort; it is embedded with `List.insertionSort` (stable)
  on the lexicographic key relation `candLe`.
-/

namespace Organoid

/-- One period of a template: `{"start_day": …, "end_day": …, "interval": …}`
(the `description` field is presentation-only and omitted). -/
structure Period where
  start_day : Int
  end_day : Int
  interval : Int
  deriving DecidableEq, Repr

/-- A schedule template: `{"name": …, "schedule": [periods…]}`. -/
structure Template where
  name : String
  schedule : List Period
  deriving DecidableEq, Repr

/-- One visit record as built by `generate_visit_dates`
(`src/organoid.py` lines 112–119). `date` is a Python ordinal. -/
structure Visit where
  day : Int
  date : Int
  is_weekend : Bool
  selected_protocol : Option Int
  memo : String
  assigned_people : List String
  deriving DecidableEq, Repr

/-- The constant `DEFAULT_ORGANOID_TEMPLATE` (`src/organoid.py` lines
15–24). -/
def DEFAULT_ORGANOID_TEMPLATE : Template :=
  { name := "Organoid"
    schedule :=
      [ { start_day := 0,  end_day := 6,   interval := 1 }
      , { start_day := 7,  end_day := 15,  interval := 1 }
      , { start_day := 16, end_day := 24,  interval := 2 }
      , { start_day := 25, end_day := 42,  interval := 2 }
      , { start_day := 43, end_day := 150, interval := 4 } ] }

/-- Python's `date.weekday()` on an ordinal: ordinal 1 (0001-01-01) is a
Monday, so the weekday is `(d + 6) % 7` with Monday = 0 … Sunday = 6. -/
def pyWeekday (d : Int) : Int := (d + 6) % 7

/-- The visit dict appended at `src/organoid.py` lines 112–119:
`date = start_date + timedelta(days=current_day)`,
`is_weekend = visit_date.weekday() >= 5`, fresh empty user fields. -/
def mkVisit (start_date current_day : Int) : Visit :=
  { day := current_day
    date := start_date + current_day
    is_weekend := 5 ≤ pyWeekday (start_date + current_day)
    selected_protocol := none
    memo := ""
    assigned_people := [] }

/-- The day offsets emitted by the loop
`while current_day <= end_day: emit current_day; current_day += interval`,
run for at most `fuel` iterations. -/
def periodDaysGo (interval : Int) : Nat → Int → Int → List Int
  | 0, _, _ => []
  | fuel + 1, curr, endDay =>
      if curr ≤ endDay then
        curr :: periodDaysGo interval fuel (curr + interval) endDay
      else []

/-- Day offsets of one period. When `interval ≥ 1` the source loop performs
at most `(end_day + 1 - start_day).toNat` iterations, so that fuel makes
`periodDaysGo` coincide with the loop. When `interval ≤ 0` and
`start_day ≤ end_day` the source loop never terminates (see
`periodDaysGo_length_of_interval_zero`); this total model returns `[]`
there, and every theorem about terminating behaviour assumes
`1 ≤ interval`. -/
def periodDays (p : Period) : List Int :=
  if p.interval ≤ 0 then []
  else periodDaysGo p.interval (p.end_day + 1 - p.start_day).toNat p.start_day p.end_day

/-- Visits of one period: each emitted day offset becomes a visit dict. -/
def periodVisits (start_date : Int) (p : Period) : List Visit :=
  (periodDays p).map (mkVisit start_date)

/-- The function `generate_visit_dates(start_date, template)`
(`src/organoid.py` lines 104–122): for each period of
`template["schedule"]` in order, run the while loop and append the emitted
visits to a single list. -/
def generate_visit_dates (start_date : Int) (template : Template) : List Visit :=
  (template.schedule.map (periodVisits start_date)).flatten

/-- The function `count_weekend_visits(visits)`
(`src/organoid.py` lines 124–126). -/
def count_weekend_visits (visits : List Visit) : Nat :=
  visits.countP (·.is_weekend)

/-- An existing schedule record as consumed by `find_overlaps`: its `status`
is read with `schedule.get("status")` (absent key → `None`, modelled by
`Option String`), and its `visits` carry `YYYY-MM-DD` date strings that are
parsed back to dates; the embedding keeps the parsed ordinals directly. -/
structure Sched where
  name : String
  status : Option String
  visits : List Int
  deriving DecidableEq, Repr

/-- The set of distinct calendar dates of a candidate visit list
(`new_dates` at `src/organoid.py` lines 131–134: `.date()` on each visit's
datetime, collected into a Python `set`). -/
def visitDateSet (visits : List Visit) : Finset Int :=
  (visits.map Visit.date).toFinset

/-- The set of distinct calendar dates of a stored schedule's visits
(`schedule_dates` at `src/organoid.py` lines 141–144). -/
def schedDateSet (s : Sched) : Finset Int :=
  s.visits.toFinset

/-- Python `dict` assignment `d[k] = v`: overwrite in place when the key is
present, otherwise append at the end. -/
def dictInsert (d : List (String × Nat)) (k : String) (v : Nat) : List (String × Nat) :=
  if d.any (fun p => p.1 == k) then
    d.map (fun p => if p.1 == k then (k, v) else p)
  else d ++ [(k, v)]

/-- The body of the `for schedule in existing_schedules` loop of
`find_overlaps` (`src/organoid.py` lines 137–148): skip a schedule whose
`status` equals `"completed"`; otherwise intersect the candidate date set
with the schedule's date set and record `len(overlap_dates)` under the
schedule's name when the intersection is non-empty (Python's `if
overlap_dates:` truthiness test). -/
def overlapStep (new_dates : Finset Int) (overlaps : List (String × Nat))
    (schedule : Sched) : List (String × Nat) :=
  if schedule.status = some "completed" then overlaps
  else
    let overlap_dates := new_dates ∩ schedDateSet schedule
    if overlap_dates = ∅ then overlaps
    else dictInsert overlaps schedule.name overlap_dates.card

/-- The function `find_overlaps(new_visits, existing_schedules)`
(`src/organoid.py` lines 128–150): fold the loop body over the existing
schedules, starting from the empty dict. -/
def find_overlaps (new_visits : List Visit) (existing_schedules : List Sched) :
    List (String × Nat) :=
  existing_schedules.foldl (overlapStep (visitDateSet new_visits)) []

/-- The function `get_start_date_candidates(base_date, days_range)`
(`src/organoid.py` lines 152–158): `base_date + timedelta(days=i)` for
`i in range(days_range)`; Python's `range` of a non-positive bound is
empty, which `Int.toNat` reproduces. -/
def get_start_date_candidates (base_date : Int) (days_range : Int) : List Int :=
  (List.range days_range.toNat).map (fun i => base_date + i)

/-- One entry of the recommender's `results` list
(`src/organoid.py` lines 319–325). -/
structure CandResult where
  date : Int
  weekend_count : Nat
  overlap_total : Nat
  overlaps : List (String × Nat)
  visits : List Visit
  deriving DecidableEq, Repr

/-- The sort key comparison used at `src/organoid.py` lines 327–328:
Python tuple order on `(x["weekend_count"], -x["overlap_total"])`. -/
def candLe (a b : CandResult) : Prop :=
  a.weekend_count < b.weekend_count ∨
    (a.weekend_count = b.weekend_count ∧ b.overlap_total ≤ a.overlap_total)

instance : DecidableRel candLe := fun a b => by
  unfold candLe; infer_instance

instance : IsTotal CandResult candLe where
  total a b := by unfold candLe; omega

instance : IsTrans CandResult candLe where
  trans a b c hab hbc := by unfold candLe at *; omega

/-- The statement
`results.sort(key=lambda x: (x["weekend_count"], -x["overlap_total"]))`
(`src/organoid.py` line 328). Python's `list.sort` is a stable ascending
sort; `List.insertionSort` is a stable ascending sort on the same key
relation, hence produces the same list. -/
def sortResults (results : List CandResult) : List CandResult :=
  results.insertionSort candLe

/-- The candidate-evaluation loop of the recommender
(`src/organoid.py` lines 310–328): for each candidate date, generate the
visits, count weekends, compute the overlaps and their total, then sort. -/
def recommend (base_date : Int) (search_days : Int) (template : Template)
    (schedules : List Sched) : List CandResult :=
  let candidates := get_start_date_candidates base_date search_days
  let results := candidates.map (fun candidate_date =>
    let visits := generate_visit_dates candidate_date template
    let overlaps := find_overlaps visits schedules
    { date := candidate_date
      weekend_count := count_weekend_visits visits
      overlap_total := (overlaps.map Prod.snd).sum
      overlaps := overlaps
      visits := visits })
  sortResults results

/-! ## Helper lemmas about the visit generator -/

theorem mkVisit_day (s d : Int) : (mkVisit s d).day = d := rfl

theorem mkVisit_date (s d : Int) : (mkVisit s d).date = s + d := rfl

theorem mem_periodDaysGo_lb {i : Int} (hi : 0 ≤ i) :
    ∀ (fuel : Nat) (c e d : Int), d ∈ periodDaysGo i fuel c e → c ≤ d := by
  intro fuel
  induction fuel with
  | zero => intro c e d hd; simp [periodDaysGo] at hd
  | succ n ih =>
    intro c e d hd
    rw [periodDaysGo] at hd
    by_cases hc : c ≤ e
    · rw [if_pos hc] at hd
      rcases List.mem_cons.mp hd with rfl | hd
      · exact le_refl d
      · have := ih (c + i) e d hd
        omega
    · rw [if_neg hc] at hd
      simp at hd

theorem periodDaysGo_pairwise {i : Int} (hi : 1 ≤ i) :
    ∀ (fuel : Nat) (c e : Int), (periodDaysGo i fuel c e).Pairwise (· < ·) := by
  intro fuel
  induction fuel with
  | zero => intro c e; simp [periodDaysGo]
  | succ n ih =>
    intro c e
    rw [periodDaysGo]
    by_cases hc : c ≤ e
    · rw [if_pos hc]
      refine List.pairwise_cons.mpr ⟨?_, ih (c + i) e⟩
      intro d hd
      have := mem_periodDaysGo_lb (by omega) n (c + i) e d hd
      omega
    · rw [if_neg hc]; exact List.Pairwise.nil

theorem periodDays_pairwise (p : Period) (hp : 1 ≤ p.interval) :
    (periodDays p).Pairwise (· < ·) := by
  rw [periodDays, if_neg (by omega)]
  exact periodDaysGo_pairwise hp _ p.start_day p.end_day

/-- The loop body run with non-positive `interval` from within the day
range emits one visit per iteration forever: for every fuel bound the
truncated loop has emitted exactly `fuel` visits, so the source's unbounded
loop never exits and never raises an error. -/
theorem periodDaysGo_length_of_nonpos {i : Int} (hi : i ≤ 0) :
    ∀ (fuel : Nat) (c e : Int), c ≤ e → (periodDaysGo i fuel c e).length = fuel := by
  intro fuel
  induction fuel with
  | zero => intro c e _; simp [periodDaysGo]
  | succ n ih =>
    intro c e hc
    rw [periodDaysGo, if_pos hc, List.length_cons, ih (c + i) e (by omega)]

theorem mem_generate_iff {v : Visit} {s : Int} {t : Template} :
    v ∈ generate_visit_dates s t ↔
      ∃ p ∈ t.schedule, ∃ d ∈ periodDays p, v = mkVisit s d := by
  simp only [generate_visit_dates, List.mem_flatten, List.mem_map, periodVisits]
  constructor
  · rintro ⟨l, ⟨p, hp, rfl⟩, hv⟩
    rcases List.mem_map.mp hv with ⟨d, hd, rfl⟩
    exact ⟨p, hp, d, hd, rfl⟩
  · rintro ⟨p, hp, d, hd, rfl⟩
    exact ⟨(periodDays p).map (mkVisit s), ⟨p, hp, rfl⟩, List.mem_map_of_mem _ hd⟩

/-- The day offsets of a whole template, period by period. -/
def dayOffsets (t : Template) : List Int :=
  (t.schedule.map periodDays).flatten

theorem generate_map_day (s : Int) (t : Template) :
    (generate_visit_dates s t).map Visit.day = dayOffsets t := by
  rw [generate_visit_dates, dayOffsets, List.map_flatten, List.map_map]
  have h : (List.map Visit.day ∘ periodVisits s) = periodDays := by
    funext p
    simp only [Function.comp_apply, periodVisits, List.map_map]
    have hid : (Visit.day ∘ mkVisit s) = fun d => d := by
      funext d; rfl
    rw [hid, List.map_id']
  rw [h]

/-! ## C1: visit count and maximum day offset of the default template -/

/-- C1 (counterexample): the claim states the maximum day offset emitted
for the default Organoid template is 148; for the concrete start date with
ordinal 0 the maximum day offset is 147 (`43 + 4 * 26 = 147`), not 148. -/
theorem C1_counterexample :
    ((generate_visit_dates 0 DEFAULT_ORGANOID_TEMPLATE).map Visit.day).maximum ≠
      some 148 := by
  rw [generate_map_day]
  decide

/-- C1 (amended): for the default Organoid template with periods
`[(0,6,1),(7,15,1),(16,24,2),(25,42,2),(43,150,4)]`, `generate_visit_dates`
called with any start date returns exactly 57 visits
(`7 + 9 + 5 + 9 + 27`), and the maximum day offset among the emitted
visits is 147 (not 148: the last fourth-daily visit is `43 + 4 * 26`). -/
theorem C1_visit_count_and_max_day (start : Int) :
    (generate_visit_dates start DEFAULT_ORGANOID_TEMPLATE).length = 57 ∧
    ((generate_visit_dates start DEFAULT_ORGANOID_TEMPLATE).map Visit.day).maximum =
      some 147 := by
  constructor
  · rw [← List.length_map (generate_visit_dates start DEFAULT_ORGANOID_TEMPLATE) Visit.day,
      generate_map_day]
    decide
  · rw [generate_map_day]
    decide

/-! ## C2: no template validation in the source -/

/-- C2 (code behaviour at the failing input): `generate_visit_dates`
performs no validation. For a period with `interval = 0` starting inside
its day range (here `start_day = 0`, `end_day = 6`) the `while` loop never
exits: for every fuel bound the loop has emitted exactly that many visits
and is still running, so no `InvalidTemplate` error is ever raised and no
value is returned. For a period with `end_day < start_day` (here
`(5, 3, 1)`) the loop body never runs, and the function silently returns
an empty visit list instead of failing. -/
theorem C2_no_validation :
    (∀ fuel : Nat, (periodDaysGo 0 fuel 0 6).length = fuel) ∧
    generate_visit_dates 0
        { name := "T", schedule := [{ start_day := 5, end_day := 3, interval := 1 }] } =
      [] := by
  constructor
  · intro fuel
    exact periodDaysGo_length_of_nonpos le_rfl fuel 0 6 (by omega)
  · decide

/-! ## C5: the weekend flag -/

/-- The weekend classifier as a pure function of the date alone
(`visit_date.weekday() >= 5`, `src/organoid.py` line 115). -/
def is_weekend_of (d : Int) : Bool := decide (5 ≤ pyWeekday d)

theorem pyWeekday_bounds (d : Int) : 0 ≤ pyWeekday d ∧ pyWeekday d < 7 :=
  ⟨Int.emod_nonneg _ (by norm_num), Int.emod_lt_of_pos _ (by norm_num)⟩

/-- C5: for every visit emitted by `generate_visit_dates` (on a template
whose periods all have `interval ≥ 1`, where the source loop terminates),
`is_weekend` is true iff the visit's date falls on a Saturday (weekday 5)
or a Sunday (weekday 6), and it equals the pure date function
`is_weekend_of`, so it is not independently settable by the generator. -/
theorem C5_weekend_flag (start : Int) (t : Template)
    (_hvalid : ∀ p ∈ t.schedule, 1 ≤ p.interval) (v : Visit)
    (hv : v ∈ generate_visit_dates start t) :
    (v.is_weekend = true ↔ pyWeekday v.date = 5 ∨ pyWeekday v.date = 6) ∧
    v.is_weekend = is_weekend_of v.date := by
  obtain ⟨p, hp, d, hd, rfl⟩ := mem_generate_iff.mp hv
  refine ⟨?_, rfl⟩
  have hb := pyWeekday_bounds ((mkVisit start d).date)
  show decide (5 ≤ pyWeekday ((mkVisit start d).date)) = true ↔ _
  rw [decide_eq_true_eq]
  omega

/-- C5 witness: the theorem applied to the default template at start
ordinal 0 and the day-5 visit. -/
theorem C5_weekend_flag_witness :
    (∀ p ∈ DEFAULT_ORGANOID_TEMPLATE.schedule, 1 ≤ p.interval) ∧
    mkVisit 0 5 ∈ generate_visit_dates 0 DEFAULT_ORGANOID_TEMPLATE ∧
    (((mkVisit 0 5).is_weekend = true ↔
        pyWeekday (mkVisit 0 5).date = 5 ∨ pyWeekday (mkVisit 0 5).date = 6) ∧
      (mkVisit 0 5).is_weekend = is_weekend_of (mkVisit 0 5).date) :=
  ⟨by decide, by decide,
    C5_weekend_flag 0 DEFAULT_ORGANOID_TEMPLATE (by decide) (mkVisit 0 5) (by decide)⟩

/-! ## C8: visit fields and output ordering -/

/-- C8: every emitted visit satisfies `date = start_date + day` and starts
with empty `assigned_people`, empty `memo` and no selected protocol; the
output is exactly the per-period blocks concatenated in
template-definition order (never globally re-sorted), and within each
period the visits are strictly ascending by day offset. -/
theorem C8_visit_fields_and_order (start : Int) (t : Template)
    (hvalid : ∀ p ∈ t.schedule, 1 ≤ p.interval) :
    (∀ v ∈ generate_visit_dates start t,
        v.date = start + v.day ∧ v.assigned_people = [] ∧ v.memo = "" ∧
          v.selected_protocol = none) ∧
    generate_visit_dates start t = (t.schedule.map (periodVisits start)).flatten ∧
    ∀ p ∈ t.schedule, (periodVisits start p).Pairwise (fun a b => a.day < b.day) := by
  refine ⟨?_, rfl, ?_⟩
  · intro v hv
    obtain ⟨p, hp, d, hd, rfl⟩ := mem_generate_iff.mp hv
    exact ⟨rfl, rfl, rfl, rfl⟩
  · intro p hp
    rw [periodVisits, List.pairwise_map]
    have h := periodDays_pairwise p (hvalid p hp)
    refine h.imp ?_
    intro a b hab
    simpa [mkVisit_day] using hab

/-- C8 witness: the theorem applied to the default template at start
ordinal 0. -/
theorem C8_visit_fields_and_order_witness :
    (∀ p ∈ DEFAULT_ORGANOID_TEMPLATE.schedule, 1 ≤ p.interval) ∧
    ((∀ v ∈ generate_visit_dates 0 DEFAULT_ORGANOID_TEMPLATE,
        v.date = 0 + v.day ∧ v.assigned_people = [] ∧ v.memo = "" ∧
          v.selected_protocol = none) ∧
      generate_visit_dates 0 DEFAULT_ORGANOID_TEMPLATE =
        (DEFAULT_ORGANOID_TEMPLATE.schedule.map (periodVisits 0)).flatten ∧
      ∀ p ∈ DEFAULT_ORGANOID_TEMPLATE.schedule,
        (periodVisits 0 p).Pairwise (fun a b => a.day < b.day)) :=
  ⟨by decide, C8_visit_fields_and_order 0 DEFAULT_ORGANOID_TEMPLATE (by decide)⟩

/-! ## C9: determinism of the generator -/

/-- C9: `generate_visit_dates` is deterministic — it is a pure function of
`(start_date, template)`, so two calls with identical inputs produce
structurally identical outputs: the same visit list, hence the same
sequences of day offsets, dates and weekend flags. (The source function
reads no state besides its two arguments, which the embedding as a pure
function records.) -/
theorem C9_deterministic (s1 s2 : Int) (t1 t2 : Template)
    (hs : s1 = s2) (ht : t1 = t2) :
    generate_visit_dates s1 t1 = generate_visit_dates s2 t2 ∧
    (generate_visit_dates s1 t1).map Visit.day =
      (generate_visit_dates s2 t2).map Visit.day ∧
    (generate_visit_dates s1 t1).map Visit.date =
      (generate_visit_dates s2 t2).map Visit.date ∧
    (generate_visit_dates s1 t1).map Visit.is_weekend =
      (generate_visit_dates s2 t2).map Visit.is_weekend := by
  subst hs; subst ht
  exact ⟨rfl, rfl, rfl, rfl⟩

/-- C9 witness: the theorem applied to two identical concrete inputs. -/
theorem C9_deterministic_witness :
    (0 : Int) = 0 ∧ DEFAULT_ORGANOID_TEMPLATE = DEFAULT_ORGANOID_TEMPLATE ∧
    (generate_visit_dates 0 DEFAULT_ORGANOID_TEMPLATE =
        generate_visit_dates 0 DEFAULT_ORGANOID_TEMPLATE ∧
      (generate_visit_dates 0 DEFAULT_ORGANOID_TEMPLATE).map Visit.day =
        (generate_visit_dates 0 DEFAULT_ORGANOID_TEMPLATE).map Visit.day ∧
      (generate_visit_dates 0 DEFAULT_ORGANOID_TEMPLATE).map Visit.date =
        (generate_visit_dates 0 DEFAULT_ORGANOID_TEMPLATE).map Visit.date ∧
      (generate_visit_dates 0 DEFAULT_ORGANOID_TEMPLATE).map Visit.is_weekend =
        (generate_visit_dates 0 DEFAULT_ORGANOID_TEMPLATE).map Visit.is_weekend) :=
  ⟨rfl, rfl, C9_deterministic 0 0 DEFAULT_ORGANOID_TEMPLATE DEFAULT_ORGANOID_TEMPLATE rfl rfl⟩

/-! ## Helper lemmas about the overlap detector -/

/-- The contribution of a single schedule to the overlap dict, as an
optional entry. -/
def overlapEntry (new_dates : Finset Int) (schedule : Sched) :
    Option (String × Nat) :=
  if schedule.status = some "completed" then none
  else if new_dates ∩ schedDateSet schedule = ∅ then none
  else some (schedule.name, (new_dates ∩ schedDateSet schedule).card)

theorem dictInsert_of_fresh {d : List (String × Nat)} {k : String} {v : Nat}
    (h : ∀ p ∈ d, p.1 ≠ k) : dictInsert d k v = d ++ [(k, v)] := by
  have hany : (d.any fun p => p.1 == k) = false := by
    rw [List.any_eq_false]
    intro p hp
    simpa using h p hp
  simp [dictInsert, hany]

theorem foldl_overlapStep (nd : Finset Int) (ss : List Sched) :
    ∀ acc : List (String × Nat),
      (ss.map Sched.name).Nodup →
      (∀ s ∈ ss, ∀ p ∈ acc, p.1 ≠ s.name) →
      ss.foldl (overlapStep nd) acc = acc ++ ss.filterMap (overlapEntry nd) := by
  induction ss with
  | nil => intro acc _ _; simp
  | cons s rest ih =>
    intro acc hnodup hfresh
    simp only [List.map_cons, List.nodup_cons] at hnodup
    obtain ⟨hs_notin, hnod⟩ := hnodup
    rw [List.foldl_cons, List.filterMap_cons]
    by_cases hc : s.status = some "completed"
    · rw [show overlapStep nd acc s = acc from by simp [overlapStep, hc],
        show overlapEntry nd s = none from by simp [overlapEntry, hc]]
      exact ih acc hnod fun s' hs' p hp => hfresh s' (List.mem_cons_of_mem _ hs') p hp
    · by_cases hempty : nd ∩ schedDateSet s = ∅
      · rw [show overlapStep nd acc s = acc from by simp [overlapStep, hc, hempty],
          show overlapEntry nd s = none from by simp [overlapEntry, hc, hempty]]
        exact ih acc hnod fun s' hs' p hp => hfresh s' (List.mem_cons_of_mem _ hs') p hp
      · have hstep : overlapStep nd acc s =
            acc ++ [(s.name, (nd ∩ schedDateSet s).card)] := by
          rw [overlapStep, if_neg hc]
          simp only [hempty, if_false]
          exact dictInsert_of_fresh fun p hp =>
            hfresh s (List.mem_cons_self s rest) p hp
        have hentry : overlapEntry nd s =
            some (s.name, (nd ∩ schedDateSet s).card) := by
          simp [overlapEntry, hc, hempty]
        rw [hstep, hentry]
        rw [ih (acc ++ [(s.name, (nd ∩ schedDateSet s).card)]) hnod ?_]
        · simp
        · intro s' hs' p hp
          rcases List.mem_append.mp hp with hp | hp
          · exact hfresh s' (List.mem_cons_of_mem _ hs') p hp
          · rcases List.mem_singleton.mp hp with rfl
            intro hne
            apply hs_notin
            have heq : s.name = s'.name := hne
            rw [heq]
            exact List.mem_map_of_mem Sched.name hs'

theorem find_overlaps_eq_filterMap (nv : List Visit) (ss : List Sched)
    (h : (ss.map Sched.name).Nodup) :
    find_overlaps nv ss = ss.filterMap (overlapEntry (visitDateSet nv)) := by
  have := foldl_overlapStep (visitDateSet nv) ss [] h (by simp)
  simpa [find_overlaps] using this

theorem mem_find_overlaps_iff {nv : List Visit} {ss : List Sched}
    (h : (ss.map Sched.name).Nodup) {n : String} {c : Nat} :
    (n, c) ∈ find_overlaps nv ss ↔
      ∃ s ∈ ss, s.name = n ∧ s.status ≠ some "completed" ∧
        visitDateSet nv ∩ schedDateSet s ≠ ∅ ∧
        c = (visitDateSet nv ∩ schedDateSet s).card := by
  rw [find_overlaps_eq_filterMap nv ss h, List.mem_filterMap]
  constructor
  · rintro ⟨s, hs, he⟩
    rw [overlapEntry] at he
    by_cases h1 : s.status = some "completed"
    · rw [if_pos h1] at he; cases he
    · rw [if_neg h1] at he
      by_cases h2 : visitDateSet nv ∩ schedDateSet s = ∅
      · rw [if_pos h2] at he; cases he
      · rw [if_neg h2] at he
        have he2 := Option.some_injective _ he
        rw [Prod.mk.injEq] at he2
        obtain ⟨rfl, rfl⟩ := he2
        exact ⟨s, hs, rfl, h1, h2, rfl⟩
  · rintro ⟨s, hs, rfl, hst, hne, rfl⟩
    exact ⟨s, hs, by rw [overlapEntry, if_neg hst, if_neg hne]⟩

/-! ## C3: the overlap report characterization -/

/-- C3: for schedules with pairwise-distinct names, the overlap report
contains the entry `(n, c)` iff some existing schedule is named `n`, its
status is not `"completed"`, the set of distinct dates of its visits meets
the set of distinct dates of the candidate visits in at least one date,
and `c` is the cardinality of that intersection; completed and
zero-overlap schedules never appear. -/
theorem C3_overlap_report (nv : List Visit) (ss : List Sched)
    (h : (ss.map Sched.name).Nodup) (n : String) (c : Nat) :
    (n, c) ∈ find_overlaps nv ss ↔
      ∃ s ∈ ss, s.name = n ∧ s.status ≠ some "completed" ∧
        1 ≤ (visitDateSet nv ∩ schedDateSet s).card ∧
        c = (visitDateSet nv ∩ schedDateSet s).card := by
  rw [mem_find_overlaps_iff h]
  constructor
  · rintro ⟨s, hs, h1, h2, h3, h4⟩
    refine ⟨s, hs, h1, h2, ?_, h4⟩
    have := mt Finset.card_eq_zero.mp h3
    omega
  · rintro ⟨s, hs, h1, h2, h3, h4⟩
    refine ⟨s, hs, h1, h2, ?_, h4⟩
    intro hcontra
    rw [hcontra, Finset.card_empty] at h3
    omega

/-- C3 witness: one active schedule named `A` on dates `{10, 11}` against a
single candidate visit on date `10`, giving the entry `("A", 1)`. -/
theorem C3_overlap_report_witness :
    (([⟨"A", some "active", [10, 11]⟩] : List Sched).map Sched.name).Nodup ∧
    (("A", 1) ∈
        find_overlaps [mkVisit 10 0] [⟨"A", some "active", [10, 11]⟩] ↔
      ∃ s ∈ ([⟨"A", some "active", [10, 11]⟩] : List Sched), s.name = "A" ∧
        s.status ≠ some "completed" ∧
        1 ≤ (visitDateSet [mkVisit 10 0] ∩ schedDateSet s).card ∧
        1 = (visitDateSet [mkVisit 10 0] ∩ schedDateSet s).card) :=
  ⟨by decide, C3_overlap_report [mkVisit 10 0] [⟨"A", some "active", [10, 11]⟩]
    (by decide) "A" 1⟩

/-! ## C10: a schedule with no status field is not excluded -/

/-- C10: a schedule record whose `status` key is absent
(`schedule.get("status")` returns `None`) is treated as non-completed:
whenever its date set meets the candidate's date set it appears in the
overlap report with the intersection cardinality. -/
theorem C10_missing_status_included (nv : List Visit) (ss : List Sched)
    (h : (ss.map Sched.name).Nodup) (s : Sched) (hs : s ∈ ss)
    (hstatus : s.status = none)
    (hover : visitDateSet nv ∩ schedDateSet s ≠ ∅) :
    (s.name, (visitDateSet nv ∩ schedDateSet s).card) ∈ find_overlaps nv ss := by
  rw [mem_find_overlaps_iff h]
  exact ⟨s, hs, rfl, by simp [hstatus], hover, rfl⟩

/-- C10 witness: a schedule with no status field and one colliding date
appears in the report. -/
theorem C10_missing_status_included_witness :
    (([⟨"B", none, [20]⟩] : List Sched).map Sched.name).Nodup ∧
    (⟨"B", none, [20]⟩ : Sched) ∈ ([⟨"B", none, [20]⟩] : List Sched) ∧
    (⟨"B", none, [20]⟩ : Sched).status = none ∧
    visitDateSet [mkVisit 20 0] ∩ schedDateSet ⟨"B", none, [20]⟩ ≠ ∅ ∧
    (("B", (visitDateSet [mkVisit 20 0] ∩ schedDateSet ⟨"B", none, [20]⟩).card) ∈
      find_overlaps [mkVisit 20 0] [⟨"B", none, [20]⟩]) :=
  ⟨by decide, by decide, rfl, by decide,
    C10_missing_status_included [mkVisit 20 0] [⟨"B", none, [20]⟩] (by decide)
      ⟨"B", none, [20]⟩ (by decide) rfl (by decide)⟩

/-! ## C6: symmetry of the overlap count -/

/-- A stored schedule's visits presented as a candidate visit list, so that
they can be fed into the `new_visits` side of `find_overlaps`. -/
def asCandidateVisits (s : Sched) : List Visit :=
  s.visits.map (fun d => mkVisit d 0)

theorem visitDateSet_asCandidateVisits (s : Sched) :
    visitDateSet (asCandidateVisits s) = schedDateSet s := by
  rw [visitDateSet, asCandidateVisits, schedDateSet, List.map_map]
  have h : (Visit.date ∘ fun d => mkVisit d 0) = fun d => d := by
    funext d
    simp [Function.comp_apply, mkVisit_date]
  rw [h, List.map_id']

theorem find_overlaps_singleton (nv : List Visit) (s : Sched)
    (hs : s.status ≠ some "completed") :
    find_overlaps nv [s] =
      if visitDateSet nv ∩ schedDateSet s = ∅ then []
      else [(s.name, (visitDateSet nv ∩ schedDateSet s).card)] := by
  by_cases hempty : visitDateSet nv ∩ schedDateSet s = ∅
  · simp [find_overlaps, overlapStep, hs, hempty]
  · simp [find_overlaps, overlapStep, hs, hempty, dictInsert]

/-- C6: overlap counting is symmetric in the two date sets. Feeding
schedule `A`'s dates as the candidate against `[B]` reports for `B` the
cardinality of `Da ∩ Db` (no entry when it is zero), and feeding `B`'s
dates against `[A]` reports the same count for `A`. -/
theorem C6_overlap_symmetry (A B : Sched)
    (hA : A.status ≠ some "completed") (hB : B.status ≠ some "completed") :
    (find_overlaps (asCandidateVisits A) [B] =
      if (schedDateSet A ∩ schedDateSet B).card = 0 then []
      else [(B.name, (schedDateSet A ∩ schedDateSet B).card)]) ∧
    (find_overlaps (asCandidateVisits B) [A] =
      if (schedDateSet A ∩ schedDateSet B).card = 0 then []
      else [(A.name, (schedDateSet A ∩ schedDateSet B).card)]) := by
  constructor
  · rw [find_overlaps_singleton _ _ hB, visitDateSet_asCandidateVisits]
    simp [Finset.card_eq_zero]
  · rw [find_overlaps_singleton _ _ hA, visitDateSet_asCandidateVisits,
      Finset.inter_comm (schedDateSet B) (schedDateSet A)]
    simp [Finset.card_eq_zero]

/-- C6 witness: `A` on dates `{1, 2, 3}` and `B` on dates `{2, 3, 4}`
overlap in both directions with count 2. -/
theorem C6_overlap_symmetry_witness :
    ((⟨"A", some "active", [1, 2, 3]⟩ : Sched).status ≠ some "completed") ∧
    ((⟨"B", none, [2, 3, 4]⟩ : Sched).status ≠ some "completed") ∧
    ((find_overlaps (asCandidateVisits ⟨"A", some "active", [1, 2, 3]⟩)
          [⟨"B", none, [2, 3, 4]⟩] =
        if (schedDateSet ⟨"A", some "active", [1, 2, 3]⟩ ∩
              schedDateSet ⟨"B", none, [2, 3, 4]⟩).card = 0 then []
        else [("B", (schedDateSet ⟨"A", some "active", [1, 2, 3]⟩ ∩
              schedDateSet ⟨"B", none, [2, 3, 4]⟩).card)]) ∧
      (find_overlaps (asCandidateVisits ⟨"B", none, [2, 3, 4]⟩)
          [⟨"A", some "active", [1, 2, 3]⟩] =
        if (schedDateSet ⟨"A", some "active", [1, 2, 3]⟩ ∩
              schedDateSet ⟨"B", none, [2, 3, 4]⟩).card = 0 then []
        else [("A", (schedDateSet ⟨"A", some "active", [1, 2, 3]⟩ ∩
              schedDateSet ⟨"B", none, [2, 3, 4]⟩).card)])) :=
  ⟨by decide, by decide,
    C6_overlap_symmetry ⟨"A", some "active", [1, 2, 3]⟩ ⟨"B", none, [2, 3, 4]⟩
      (by decide) (by decide)⟩

/-! ## C4: the recommender's ranking -/

theorem filter_orderedInsert_of_pos {α : Type} (r : α → α → Prop)
    [DecidableRel r] (p : α → Bool) (a : α) (hpa : p a = true)
    (hrel : ∀ b, p b = true → r a b) :
    ∀ l : List α, (l.orderedInsert r a).filter p = a :: l.filter p := by
  intro l
  induction l with
  | nil => simp [List.orderedInsert, hpa]
  | cons b l ih =>
    rw [List.orderedInsert]
    by_cases hr : r a b
    · rw [if_pos hr]
      simp [List.filter_cons, hpa]
    · rw [if_neg hr]
      have hpb : p b = false := by
        cases h : p b
        · rfl
        · exact absurd (hrel b h) hr
      simp [List.filter_cons, hpb, ih]

theorem filter_orderedInsert_of_neg {α : Type} (r : α → α → Prop)
    [DecidableRel r] (p : α → Bool) (a : α) (hpa : p a = false) :
    ∀ l : List α, (l.orderedInsert r a).filter p = l.filter p := by
  intro l
  induction l with
  | nil => simp [List.orderedInsert, hpa]
  | cons b l ih =>
    rw [List.orderedInsert]
    by_cases hr : r a b
    · rw [if_pos hr]
      simp [List.filter_cons, hpa]
    · rw [if_neg hr]
      simp [List.filter_cons, ih]

/-- Stability of insertion sort: the subsequence of elements picked out by
a predicate that identifies one sort key is left untouched. -/
theorem filter_insertionSort {α : Type} (r : α → α → Prop) [DecidableRel r]
    (p : α → Bool) (hrel : ∀ a b, p a = true → p b = true → r a b) :
    ∀ l : List α, (l.insertionSort r).filter p = l.filter p := by
  intro l
  induction l with
  | nil => rfl
  | cons a l ih =>
    rw [List.insertionSort]
    cases hpa : p a
    · rw [filter_orderedInsert_of_neg r p a hpa, ih]
      simp [List.filter_cons, hpa]
    · rw [filter_orderedInsert_of_pos r p a hpa (fun b hb => hrel a b hpa hb), ih]
      simp [List.filter_cons, hpa]

/-- C4: the recommender's sort yields a list that is pairwise ordered by
the key pair `(weekend_count, -overlap_total)` — so among two ranked
candidates with equal weekend counts the earlier one has the larger (or
equal) overlap total, and a candidate with strictly smaller weekend count
always precedes one with a larger weekend count; the output is a
permutation of the input; and candidates that agree on both keys keep
their input (chronological) order, since the sort is stable. -/
theorem C4_ranking (results : List CandResult) :
    (sortResults results).Pairwise candLe ∧
    (sortResults results).Perm results ∧
    ∀ w o, (sortResults results).filter
        (fun x => x.weekend_count == w && x.overlap_total == o) =
      results.filter (fun x => x.weekend_count == w && x.overlap_total == o) := by
  refine ⟨List.sorted_insertionSort candLe results,
    List.perm_insertionSort candLe results, ?_⟩
  intro w o
  apply filter_insertionSort candLe
  intro a b ha hb
  simp only [Bool.and_eq_true, beq_iff_eq] at ha hb
  right
  exact ⟨ha.1.trans hb.1.symm, le_of_eq (hb.2.trans ha.2.symm)⟩

/-! ## C7: non-positive search window -/

/-- C7 (counterexample): the claim states that a non-positive window makes
the recommender fail with an `InvalidArgument` error before any
computation; the code has no such check — `range(days_range)` is simply
empty, so `get_start_date_candidates` returns the empty list (a normal
result, not an error) for window 0 and for negative windows. -/
theorem C7_counterexample :
    get_start_date_candidates 0 0 = [] ∧ get_start_date_candidates 0 (-3) = [] := by
  constructor <;> rfl

/-- C7 (amended): for every non-positive window, `get_start_date_candidates`
returns the empty candidate list, and the whole recommender pipeline
returns the empty result list — no candidate is computed, but no error is
raised either. -/
theorem C7_nonpositive_window (base : Int) (w : Int) (hw : w ≤ 0)
    (t : Template) (ss : List Sched) :
    get_start_date_candidates base w = [] ∧ recommend base w t ss = [] := by
  have hz : w.toNat = 0 := Int.toNat_of_nonpos hw
  constructor
  · rw [get_start_date_candidates, hz]
    rfl
  · rw [recommend, get_start_date_candidates, hz]
    rfl

/-- C7 witness: the amended theorem applied at window `-2`. -/
theorem C7_nonpositive_window_witness :
    (-2 : Int) ≤ 0 ∧
    (get_start_date_candidates 7 (-2) = [] ∧
      recommend 7 (-2) DEFAULT_ORGANOID_TEMPLATE [] = []) :=
  ⟨by norm_num, C7_nonpositive_window 7 (-2) (by norm_num) DEFAULT_ORGANOID_TEMPLATE []⟩

end Organoid
